import Mathlib

/-!
Shallow embedding of the chatroome client's real-time channel
synchronization engine: the `AuthUI` class of `auth-ui.js`.

Strings are modelled as `List Char`.  The JavaScript string operations the
source uses are modelled explicitly below: `String.prototype.toLowerCase`
(restricted, like `Char.toLower`, to basic latin letters),
`String.prototype.trim`, `String.prototype.includes`, `split` at the
first `@`, and the HTML escaping performed by writing `textContent` and
reading back `innerHTML`.

The mutable fields of the single `AuthUI` instance that carry the
session's synchronization state (`currentUser`, `currentChannel`,
`messageListener`, `allMessages`, `onlineUsers`) are collected in
`SessionState`, together with the set of Firestore `onSnapshot`
registrations that are currently live (`liveSubs`, tagged with a fresh
generation number each time `onSnapshot` is called) so that listener
lifetime is observable in the model.  Snapshot callbacks run
asynchronously; their state effect is modelled by the explicit delivery
operations `deliverMessageSnapshot` and `deliverPresenceSnapshot`, which
fire only for a registration that is still live (Firestore stops invoking
a callback once its unsubscribe function has been called).
-/

namespace Chatroome

/-- JS `String.prototype.toLowerCase`, character-wise, restricted to basic
latin letters exactly as `Char.toLower` is. -/
def toLowerStr (s : List Char) : List Char := s.map Char.toLower

/-- JS `String.prototype.trim`: strip leading and trailing whitespace. -/
def trim (s : List Char) : List Char :=
  ((s.dropWhile Char.isWhitespace).reverse.dropWhile Char.isWhitespace).reverse

/-- JS `String.prototype.includes`: substring containment. -/
def containsSubstr : List Char → List Char → Bool
  | [], sub => sub.isEmpty
  | c :: t, sub => sub.isPrefixOf (c :: t) || containsSubstr t sub

/-- JS `email.split('@')[0]`: the part of the address before the first
`@` (the whole string when there is none). -/
def emailLocalPart (email : List Char) : List Char :=
  email.takeWhile (fun c => c != '@')

/-- The character-level escaping performed by `AuthUI.escapeHtml`
(auth-ui.js 536-540): assigning `textContent` and reading `innerHTML`
escapes the markup-significant data characters. -/
def escapeChar (c : Char) : List Char :=
  if c = '&' then ['&', 'a', 'm', 'p', ';']
  else if c = '<' then ['&', 'l', 't', ';']
  else if c = '>' then ['&', 'g', 't', ';']
  else [c]

/-- `AuthUI.escapeHtml` (auth-ui.js 536-540). -/
def escapeHtml (text : List Char) : List Char := text.flatMap escapeChar

/-! ### Character facts used for the search analysis -/

theorem isUpper_iff (c : Char) : c.isUpper = true ↔ 65 ≤ c.toNat ∧ c.toNat ≤ 90 := by
  simp [Char.isUpper, show ∀ a b : UInt32, (a ≤ b ↔ a.toNat ≤ b.toNat) from fun _ _ => Iff.rfl]
  rfl

theorem toLower_toNat_of_isUpper (c : Char) (h : c.isUpper = true) :
    (Char.toLower c).toNat = c.toNat + 32 := by
  rw [isUpper_iff] at h
  unfold Char.toLower
  rw [if_pos ⟨h.1, h.2⟩]
  rw [Char.ofNat, dif_pos]
  · rfl
  · show Nat.isValidChar _
    unfold Nat.isValidChar
    omega

theorem toLower_of_not_isUpper (c : Char) (h : c.isUpper = false) :
    Char.toLower c = c := by
  rw [Bool.eq_false_iff, Ne, isUpper_iff] at h
  unfold Char.toLower
  rw [if_neg]
  omega

theorem isWhitespace_iff (c : Char) :
    c.isWhitespace = true ↔ c.toNat = 32 ∨ c.toNat = 9 ∨ c.toNat = 13 ∨ c.toNat = 10 := by
  constructor
  · intro h
    simp [Char.isWhitespace] at h
    rcases h with ((h | h) | h) | h <;> subst h <;> decide
  · intro h
    have hc : c = ' ' ∨ c = '\t' ∨ c = '\r' ∨ c = '\n' := by
      rcases h with h | h | h | h
      · exact Or.inl (Char.ext (UInt32.ext (by simpa using h)))
      · exact Or.inr (Or.inl (Char.ext (UInt32.ext (by simpa using h))))
      · exact Or.inr (Or.inr (Or.inl (Char.ext (UInt32.ext (by simpa using h)))))
      · exact Or.inr (Or.inr (Or.inr (Char.ext (UInt32.ext (by simpa using h)))))
    rcases hc with h | h | h | h <;> subst h <;> decide

theorem toLower_isWhitespace (c : Char) :
    (Char.toLower c).isWhitespace = c.isWhitespace := by
  by_cases h : c.isUpper = true
  · have h1 := toLower_toNat_of_isUpper c h
    rw [isUpper_iff] at h
    have h2 : (Char.toLower c).isWhitespace = false := by
      rw [Bool.eq_false_iff, Ne, isWhitespace_iff]; omega
    have h3 : c.isWhitespace = false := by
      rw [Bool.eq_false_iff, Ne, isWhitespace_iff]; omega
    rw [h2, h3]
  · rw [toLower_of_not_isUpper c (Bool.eq_false_iff.mpr h)]

theorem toLower_isUpper (c : Char) : (Char.toLower c).isUpper = false := by
  by_cases h : c.isUpper = true
  · have h1 := toLower_toNat_of_isUpper c h
    rw [isUpper_iff] at h
    rw [Bool.eq_false_iff, Ne, isUpper_iff]; omega
  · rw [toLower_of_not_isUpper c (Bool.eq_false_iff.mpr h)]
    exact Bool.eq_false_iff.mpr h

theorem toLower_idem (c : Char) : Char.toLower (Char.toLower c) = Char.toLower c :=
  toLower_of_not_isUpper _ (toLower_isUpper c)

/-! ### `trim` facts -/

theorem trim_eq_nil_iff (l : List Char) :
    trim l = [] ↔ ∀ c ∈ l, c.isWhitespace = true := by
  unfold trim
  rw [List.reverse_eq_nil_iff, List.dropWhile_eq_nil_iff]
  constructor
  · intro h c hc
    have hsplit := List.takeWhile_append_dropWhile Char.isWhitespace l
    rw [← hsplit] at hc
    rcases List.mem_append.mp hc with hc | hc
    · exact List.mem_takeWhile_imp hc
    · exact h c (List.mem_reverse.mpr hc)
  · intro h c hc
    exact h c ((List.dropWhile_sublist _).mem (List.mem_reverse.mp hc))

theorem toLowerStr_toLowerStr (l : List Char) :
    toLowerStr (toLowerStr l) = toLowerStr l := by
  unfold toLowerStr
  rw [List.map_map]
  exact List.map_congr_left fun c _ => toLower_idem c

/-! ### Data model -/

/-- A Firebase auth user as consumed by `AuthUI` (`uid`, `email`,
`displayName`).  An empty `displayName` models JS `null`/`''`, both falsy,
which is all the source distinguishes (`displayName || email.split('@')[0]`).
`photoURL` is presentation-only (avatar fallback) and not modelled. -/
structure AuthUser where
  uid : List Char
  email : List Char
  displayName : List Char
  deriving DecidableEq

/-- A `messages` collection document, with the fields `sendMessage`
(auth-ui.js 359-368) writes and the snapshot callback of `loadMessages`
reads.  `timestamp` is `none` while the `serverTimestamp()` is still
pending.  The `avatar` URL field is presentation-only and not modelled. -/
structure Message where
  text : List Char
  userId : List Char
  displayName : List Char
  email : List Char
  channel : List Char
  timestamp : Option Nat
  deriving DecidableEq

/-- A `users` collection document as read by the snapshot callback of
`loadOnlineUsers` (the query already filters on `status == 'online'`).
The `avatar` field is presentation-only and not modelled. -/
structure UserDoc where
  uid : List Char
  email : List Char
  displayName : List Char
  deriving DecidableEq

/-- What a live `onSnapshot` registration listens to: the `messages`
query of `loadMessages` (filtered on a channel) or the `users` presence
query of `loadOnlineUsers`. -/
inductive Topic where
  | messages (channel : List Char)
  | presence
  deriving DecidableEq

/-- Whether a topic is a channel-messages topic. -/
def Topic.isMessages : Topic → Bool
  | .messages _ => true
  | .presence => false

/-- The synchronization-relevant mutable state of the single `AuthUI`
instance.  `liveSubs` is the collection of `onSnapshot` registrations that
are currently live on the Firestore side, each tagged with the generation
number `nextGen` that was fresh when it was created; `messageListener` is
the unsubscribe handle the instance itself stores (the source stores only
the message one — `loadOnlineUsers` discards its handle). -/
structure SessionState where
  currentUser : Option AuthUser
  currentChannel : List Char
  messageListener : Option Nat
  allMessages : List Message
  onlineUsers : List (List Char)
  liveSubs : List (Nat × Topic)
  nextGen : Nat
  authModalOpen : Bool
  deriving DecidableEq

/-- The state established by the `AuthUI` constructor (auth-ui.js 21-30):
no user, channel `ideas`, no listener, empty caches. -/
def initState : SessionState :=
  { currentUser := none
    currentChannel := ['i', 'd', 'e', 'a', 's']
    messageListener := none
    allMessages := []
    onlineUsers := []
    liveSubs := []
    nextGen := 0
    authModalOpen := false }

/-- The live registrations for a channel-messages topic. -/
def msgSubs (s : SessionState) : List (Nat × Topic) :=
  s.liveSubs.filter (fun p => p.2.isMessages)

/-- The live registrations for the presence topic. -/
def presSubs (s : SessionState) : List (Nat × Topic) :=
  s.liveSubs.filter (fun p => !p.2.isMessages)

/-! ### Operations (translated from `auth-ui.js`) -/

/-- `AuthUI.clearMessageListener` (auth-ui.js 489-494): if a message
unsubscribe handle is held, call it (the registration stops being live)
and null the field. -/
def clearMessageListener (s : SessionState) : SessionState :=
  match s.messageListener with
  | none => s
  | some g =>
    { s with
        liveSubs := s.liveSubs.filter (fun p => p.1 != g)
        messageListener := none }

/-- `AuthUI.loadMessages` (auth-ui.js 291-322): return unless signed in;
clear the previous listener; register `onSnapshot` on the `messages`
query for the current channel and store the unsubscribe handle.  The
snapshot callback body runs later, at each delivery
(`deliverMessageSnapshot`). -/
def loadMessages (s : SessionState) : SessionState :=
  match s.currentUser with
  | none => s
  | some _ =>
    let s1 := clearMessageListener s
    { s1 with
        liveSubs := (s1.nextGen, Topic.messages s1.currentChannel) :: s1.liveSubs
        messageListener := some s1.nextGen
        nextGen := s1.nextGen + 1 }

/-- `AuthUI.loadOnlineUsers` (auth-ui.js 408-448): return unless signed
in; register `onSnapshot` on the presence query.  The returned
unsubscribe handle is discarded — the source never stores or cancels
it. -/
def loadOnlineUsers (s : SessionState) : SessionState :=
  match s.currentUser with
  | none => s
  | some _ =>
    { s with
        liveSubs := (s.nextGen, Topic.presence) :: s.liveSubs
        nextGen := s.nextGen + 1 }

/-- The state effect of the snapshot callback registered by
`loadMessages` (auth-ui.js 304-321) when Firestore delivers a snapshot to
registration `g`: the message container is re-rendered and `allMessages`
is rebuilt as exactly the snapshot's documents, in delivery order (the
callback empties the array and pushes each document; it does not sort).
A delivery for a registration that is no longer live never runs: the
callback stops being invoked once its unsubscribe function was called. -/
def deliverMessageSnapshot (s : SessionState) (g : Nat) (snap : List Message) :
    SessionState :=
  if s.liveSubs.any (fun p => p.1 == g && p.2.isMessages) then
    { s with allMessages := snap }
  else s

/-- One iteration of the `querySnapshot.forEach` body in
`loadOnlineUsers` (auth-ui.js 423-446): skip the current user's own
document, otherwise add the `uid` to the set (a JS `Set`: adding an
already-present element is a no-op; insertion order is kept). -/
def presStep (selfUid : List Char) (acc : List (List Char)) (u : UserDoc) :
    List (List Char) :=
  if u.uid = selfUid then acc
  else if acc.contains u.uid then acc
  else acc ++ [u.uid]

/-- The pure content of the presence snapshot callback (auth-ui.js
414-447): clear `onlineUsers`, then run `presStep` over the snapshot's
documents. -/
def applyPresenceSnapshot (snap : List UserDoc) (selfUid : List Char) :
    List (List Char) :=
  snap.foldl (presStep selfUid) []

/-- The state effect of the presence snapshot callback when Firestore
delivers a snapshot to a still-live presence registration `g`.  When no
user is signed in at delivery time, the callback clears the set and then
throws on the first document's `this.currentUser.uid` access, so the set
is left empty in that case too. -/
def deliverPresenceSnapshot (s : SessionState) (g : Nat) (snap : List UserDoc) :
    SessionState :=
  if s.liveSubs.any (fun p => p.1 == g && !p.2.isMessages) then
    match s.currentUser with
    | some u => { s with onlineUsers := applyPresenceSnapshot snap u.uid }
    | none => { s with onlineUsers := [] }
  else s

/-- The `onAuthStateChanged` callback installed by
`AuthUI.initAuthListener` (auth-ui.js 204-220).  `showChatInterface` and
`showAuthInterface` touch only the DOM (and the auth modal flag);
`updateUserStatus` only reads and logs. -/
def authStateChanged (s : SessionState) (user : Option AuthUser) : SessionState :=
  match user with
  | some u =>
    loadOnlineUsers (loadMessages
      { s with currentUser := some u, authModalOpen := false })
  | none =>
    clearMessageListener { s with currentUser := none }

/-- `AuthUI.switchChannel` (auth-ui.js 378-406): when signed out, open the
auth modal and return; otherwise update `currentChannel` (the rest of the
body only rewrites DOM text) and call `loadMessages`. -/
def switchChannel (s : SessionState) (ch : List Char) : SessionState :=
  match s.currentUser with
  | none => { s with authModalOpen := true }
  | some _ => loadMessages { s with currentChannel := ch }

/-- The document `AuthUI.sendMessage` (auth-ui.js 353-376) writes to the
`messages` collection.  The `timestamp` field is the `serverTimestamp()`
sentinel (assigned server-side) and the `avatar` field a URL built from
`photoURL` or a ui-avatars.com template; both are omitted here because no
claim inspects them. -/
structure SendRecord where
  text : List Char
  userId : List Char
  displayName : List Char
  email : List Char
  channel : List Char
  deriving DecidableEq

/-- `AuthUI.sendMessage` (auth-ui.js 353-376): return without writing when
no user is signed in or the input is empty after trimming (JS
`!value.trim()` — the empty string is falsy); otherwise write the
document.  `none` models "no write performed". -/
def sendMessage (currentUser : Option AuthUser) (inputValue : List Char)
    (currentChannel : List Char) : Option SendRecord :=
  match currentUser with
  | none => none
  | some u =>
    if trim inputValue = [] then none
    else some
      { text := trim inputValue
        userId := u.uid
        displayName :=
          if u.displayName = [] then emailLocalPart u.email else u.displayName
        email := u.email
        channel := currentChannel }

/-- The three render states `AuthUI.handleSearch` (auth-ui.js 459-487) can
leave the search-results container in: the "Enter a search term" sentinel,
the "No messages found" sentinel, or a list of result items. -/
inductive SearchRender where
  | enterTerm
  | noResults
  | results (msgs : List Message)
  deriving DecidableEq

/-- The filter predicate of `handleSearch` (auth-ui.js 467-470):
lower-cased `text` or lower-cased `displayName` contains the (already
lower-cased, trimmed) search term. -/
def messageMatches (searchTerm : List Char) (m : Message) : Bool :=
  containsSubstr (toLowerStr m.text) searchTerm ||
  containsSubstr (toLowerStr m.displayName) searchTerm

/-- `AuthUI.handleSearch` (auth-ui.js 459-487): lower-case then trim the
input; empty term gives the "enter a term" sentinel; otherwise filter
`allMessages`, giving the "no results" sentinel or the filtered list. -/
def handleSearch (inputValue : List Char) (allMessages : List Message) :
    SearchRender :=
  let searchTerm := trim (toLowerStr inputValue)
  if searchTerm = [] then .enterTerm
  else
    let filteredMessages := allMessages.filter (messageMatches searchTerm)
    if filteredMessages = [] then .noResults
    else .results filteredMessages

/-- The string interpolated into the `message-text` div by
`AuthUI.displayMessage` (auth-ui.js 345): the escaped text. -/
def messageTextSlot (m : Message) : List Char := escapeHtml m.text

/-- The string interpolated into the `search-result-text` div by
`AuthUI.handleSearch` (auth-ui.js 481): the raw text, with no escaping. -/
def searchResultTextSlot (m : Message) : List Char := m.text

/-! ### The session as a transition system -/

/-- The events that mutate session state: an auth state change, a channel
switch, and asynchronous snapshot deliveries to (possibly stale)
registrations. -/
inductive Step : SessionState → SessionState → Prop where
  | auth (s : SessionState) (user : Option AuthUser) :
      Step s (authStateChanged s user)
  | switch (s : SessionState) (ch : List Char) :
      Step s (switchChannel s ch)
  | msgSnap (s : SessionState) (g : Nat) (snap : List Message) :
      Step s (deliverMessageSnapshot s g snap)
  | presSnap (s : SessionState) (g : Nat) (snap : List UserDoc) :
      Step s (deliverPresenceSnapshot s g snap)

/-- A session state reachable from the constructor state by any
interleaving of events. -/
def Reachable (s : SessionState) : Prop :=
  Relation.ReflTransGen Step initState s

/-- Bookkeeping invariant of every reachable state: the live
channel-messages registrations are exactly the one the stored
`messageListener` handle refers to; generation tags are below `nextGen`
and pairwise distinct. -/
def Inv (s : SessionState) : Prop :=
  (msgSubs s).map Prod.fst = s.messageListener.toList ∧
  (∀ p ∈ s.liveSubs, p.1 < s.nextGen) ∧
  (s.liveSubs.map Prod.fst).Nodup

/-! ### Invariant preservation -/

theorem map_fst_eq_singleton {l : List (Nat × Topic)} {g : Nat}
    (h : l.map Prod.fst = [g]) : ∃ t, l = [(g, t)] := by
  cases l with
  | nil => simp at h
  | cons p tl =>
    cases tl with
    | nil =>
      simp at h
      exact ⟨p.2, by simp [← h]⟩
    | cons q tl2 => simp at h

theorem inv_clearMessageListener {s : SessionState} (h : Inv s) :
    Inv (clearMessageListener s) := by
  obtain ⟨h1, h2, h3⟩ := h
  cases hml : s.messageListener with
  | none => simpa [clearMessageListener, hml] using ⟨h1, h2, h3⟩
  | some g =>
    rw [hml] at h1
    obtain ⟨t, ht⟩ := map_fst_eq_singleton (by simpa using h1)
    refine ⟨?_, ?_, ?_⟩
    · simp only [clearMessageListener, hml, msgSubs]
      rw [List.filter_comm, show s.liveSubs.filter (fun p => p.2.isMessages) = msgSubs s from rfl,
        ht]
      simp
    · intro p hp
      simp only [clearMessageListener, hml] at hp ⊢
      exact h2 p (List.mem_filter.mp hp).1
    · simp only [clearMessageListener, hml]
      exact ((List.filter_sublist _).map Prod.fst).nodup h3

theorem messageListener_clearMessageListener (s : SessionState) :
    (clearMessageListener s).messageListener = none := by
  cases hml : s.messageListener <;> simp [clearMessageListener, hml]

theorem msgSubs_clearMessageListener {s : SessionState} (h : Inv s) :
    msgSubs (clearMessageListener s) = [] := by
  obtain ⟨h1, h2, h3⟩ := h
  cases hml : s.messageListener with
  | none =>
    rw [hml] at h1
    simp only [Option.toList] at h1
    have : msgSubs s = [] := List.map_eq_nil_iff.mp h1
    simpa [clearMessageListener, hml] using this
  | some g =>
    rw [hml] at h1
    obtain ⟨t, ht⟩ := map_fst_eq_singleton (by simpa using h1)
    simp only [clearMessageListener, hml, msgSubs]
    rw [List.filter_comm, show s.liveSubs.filter (fun p => p.2.isMessages) = msgSubs s from rfl,
      ht]
    simp

theorem presSubs_clearMessageListener {s : SessionState} (h : Inv s) :
    presSubs (clearMessageListener s) = presSubs s := by
  obtain ⟨h1, h2, h3⟩ := h
  cases hml : s.messageListener with
  | none => simp [clearMessageListener, hml]
  | some g =>
    rw [hml] at h1
    obtain ⟨t, ht⟩ := map_fst_eq_singleton (by simpa using h1)
    have hgmem : (g, t) ∈ s.liveSubs := by
      have : (g, t) ∈ msgSubs s := by rw [ht]; exact List.mem_singleton.mpr rfl
      exact (List.mem_filter.mp this).1
    have htmsg : t.isMessages = true := by
      have : (g, t) ∈ msgSubs s := by rw [ht]; exact List.mem_singleton.mpr rfl
      exact (List.mem_filter.mp this).2
    simp only [clearMessageListener, hml, presSubs]
    rw [List.filter_comm]
    have : (s.liveSubs.filter fun p => !p.2.isMessages) = presSubs s := rfl
    rw [this]
    rw [List.filter_eq_self]
    intro q hq
    obtain ⟨hqmem, hqpres⟩ := List.mem_filter.mp hq
    have hqg : q.1 ≠ g := by
      intro hEq
      have := List.inj_on_of_nodup_map h3 hqmem hgmem hEq
      rw [this] at hqpres
      rw [htmsg] at hqpres
      simp at hqpres
    simpa using hqg

theorem nextGen_clearMessageListener (s : SessionState) :
    (clearMessageListener s).nextGen = s.nextGen := by
  cases hml : s.messageListener <;> simp [clearMessageListener, hml]

theorem allMessages_clearMessageListener (s : SessionState) :
    (clearMessageListener s).allMessages = s.allMessages := by
  cases hml : s.messageListener <;> simp [clearMessageListener, hml]

theorem onlineUsers_clearMessageListener (s : SessionState) :
    (clearMessageListener s).onlineUsers = s.onlineUsers := by
  cases hml : s.messageListener <;> simp [clearMessageListener, hml]

theorem currentUser_clearMessageListener (s : SessionState) :
    (clearMessageListener s).currentUser = s.currentUser := by
  cases hml : s.messageListener <;> simp [clearMessageListener, hml]

theorem currentChannel_clearMessageListener (s : SessionState) :
    (clearMessageListener s).currentChannel = s.currentChannel := by
  cases hml : s.messageListener <;> simp [clearMessageListener, hml]

theorem inv_loadMessages {s : SessionState} (h : Inv s) : Inv (loadMessages s) := by
  cases hu : s.currentUser with
  | none => simpa [loadMessages, hu] using h
  | some u =>
    have hc := inv_clearMessageListener h
    obtain ⟨c1, c2, c3⟩ := hc
    have hcm : msgSubs (clearMessageListener s) = [] := msgSubs_clearMessageListener h
    set s1 := clearMessageListener s with hs1
    refine ⟨?_, ?_, ?_⟩
    · simp only [loadMessages, hu, ← hs1, msgSubs, List.filter_cons, Topic.isMessages]
      simp only [msgSubs] at hcm
      simp [hcm]
      intro a b hab
      by_contra hx
      rw [Bool.not_eq_false] at hx
      have hmem : (a, b) ∈ List.filter (fun p => p.2.isMessages) s1.liveSubs :=
        List.mem_filter.mpr ⟨hab, hx⟩
      rw [hcm] at hmem
      exact absurd hmem (List.not_mem_nil _)
    · intro p hp
      simp only [loadMessages, hu, ← hs1] at hp ⊢
      rcases List.mem_cons.mp hp with hp | hp
      · rw [hp]; exact Nat.lt_succ_self _
      · exact Nat.lt_succ_of_lt (c2 p hp)
    · simp only [loadMessages, hu, ← hs1, List.map_cons, List.nodup_cons]
      refine ⟨?_, c3⟩
      intro hmem
      obtain ⟨p, hp, hpe⟩ := List.mem_map.mp hmem
      exact absurd hpe.symm (Nat.ne_of_lt (c2 p hp)).symm

theorem inv_loadOnlineUsers {s : SessionState} (h : Inv s) : Inv (loadOnlineUsers s) := by
  obtain ⟨h1, h2, h3⟩ := h
  cases hu : s.currentUser with
  | none => simpa [loadOnlineUsers, hu] using ⟨h1, h2, h3⟩
  | some u =>
    refine ⟨?_, ?_, ?_⟩
    · simpa [loadOnlineUsers, hu, msgSubs, List.filter_cons, Topic.isMessages] using h1
    · intro p hp
      simp only [loadOnlineUsers, hu] at hp ⊢
      rcases List.mem_cons.mp hp with hp | hp
      · rw [hp]; exact Nat.lt_succ_self _
      · exact Nat.lt_succ_of_lt (h2 p hp)
    · simp only [loadOnlineUsers, hu, List.map_cons, List.nodup_cons]
      refine ⟨?_, h3⟩
      intro hmem
      obtain ⟨p, hp, hpe⟩ := List.mem_map.mp hmem
      exact absurd hpe.symm (Nat.ne_of_lt (h2 p hp)).symm

theorem inv_authStateChanged {s : SessionState} (h : Inv s) (user : Option AuthUser) :
    Inv (authStateChanged s user) := by
  cases user with
  | some u =>
    simp only [authStateChanged]
    apply inv_loadOnlineUsers
    apply inv_loadMessages
    simpa [Inv, msgSubs] using h
  | none =>
    simp only [authStateChanged]
    apply inv_clearMessageListener
    simpa [Inv, msgSubs] using h

theorem inv_switchChannel {s : SessionState} (h : Inv s) (ch : List Char) :
    Inv (switchChannel s ch) := by
  cases hu : s.currentUser with
  | none => simpa [switchChannel, hu, Inv, msgSubs] using h
  | some u =>
    simp only [switchChannel, hu]
    apply inv_loadMessages
    simpa [Inv, msgSubs] using h

theorem inv_deliverMessageSnapshot {s : SessionState} (h : Inv s) (g : Nat)
    (snap : List Message) : Inv (deliverMessageSnapshot s g snap) := by
  unfold deliverMessageSnapshot
  split
  · simpa [Inv, msgSubs] using h
  · exact h

theorem inv_deliverPresenceSnapshot {s : SessionState} (h : Inv s) (g : Nat)
    (snap : List UserDoc) : Inv (deliverPresenceSnapshot s g snap) := by
  unfold deliverPresenceSnapshot
  split
  · cases s.currentUser <;> simpa [Inv, msgSubs] using h
  · exact h

theorem inv_initState : Inv initState := by
  refine ⟨rfl, ?_, ?_⟩ <;> simp [initState]

theorem inv_step {s s' : SessionState} (h : Inv s) (hstep : Step s s') : Inv s' := by
  cases hstep with
  | auth user => exact inv_authStateChanged h user
  | switch ch => exact inv_switchChannel h ch
  | msgSnap g snap => exact inv_deliverMessageSnapshot h g snap
  | presSnap g snap => exact inv_deliverPresenceSnapshot h g snap

theorem inv_of_reachable {s : SessionState} (h : Reachable s) : Inv s := by
  induction h with
  | refl => exact inv_initState
  | tail _ hstep ih => exact inv_step ih hstep

/-! ### Concrete session runs used by counterexamples and witnesses -/

/-- A concrete signed-in user, Alice. -/
def aliceUser : AuthUser :=
  { uid := ['u', 'a'], email := ['a', '@', 'x'], displayName := ['A', 'l', 'i', 'c', 'e'] }

/-- Alice's own `users` document as it appears in a presence snapshot. -/
def aliceDoc : UserDoc :=
  { uid := ['u', 'a'], email := ['a', '@', 'x'], displayName := ['A', 'l', 'i', 'c', 'e'] }

/-- Another online user's document. -/
def bobDoc : UserDoc :=
  { uid := ['u', 'b'], email := ['b', '@', 'x'], displayName := ['B', 'o', 'b'] }

/-- A third online user's document. -/
def carolDoc : UserDoc :=
  { uid := ['u', 'c'], email := ['c', '@', 'x'], displayName := ['C', 'a', 'r', 'o', 'l'] }

/-- The default channel id, `ideas`. -/
def ideasCh : List Char := ['i', 'd', 'e', 'a', 's']

/-- The channel id `support`. -/
def supportCh : List Char := ['s', 'u', 'p', 'p', 'o', 'r', 't']

/-- A message with the earlier server timestamp. -/
def mA : Message :=
  { text := ['h', 'i'], userId := ['u', 'b'], displayName := ['B', 'o', 'b'],
    email := ['b', '@', 'x'], channel := ideasCh, timestamp := some 1 }

/-- A message with the later server timestamp. -/
def mB : Message :=
  { text := ['y', 'o'], userId := ['u', 'a'], displayName := ['A', 'l', 'i', 'c', 'e'],
    email := ['a', '@', 'x'], channel := ideasCh, timestamp := some 2 }

/-- The session right after Alice signs in: message listener generation 0
on channel `ideas`, presence registration generation 1. -/
def signedInState : SessionState := authStateChanged initState (some aliceUser)

/-- Sign in, then sign out, then sign in again. -/
def dupState : SessionState :=
  authStateChanged (authStateChanged signedInState none) (some aliceUser)

/-- Sign in, receive a message snapshot and a presence snapshot, sign out. -/
def stateAfterSignOut : SessionState :=
  authStateChanged
    (deliverPresenceSnapshot (deliverMessageSnapshot signedInState 0 [mA]) 1 [bobDoc])
    none

/-- Sign in, receive a message snapshot, then deliver a snapshot whose
delivery order is against the timestamps. -/
def misorderedDelivery : SessionState := deliverMessageSnapshot signedInState 0 [mB, mA]

/-- Sign in, receive a message snapshot on `ideas`, then switch to
`support`. -/
def switchedState : SessionState :=
  switchChannel (deliverMessageSnapshot signedInState 0 [mA]) supportCh

/-! ### Claims -/

/-- C1, counterexample.  The claim fails for the presence topic: after
sign-in, sign-out, sign-in, the reachable state has two live presence
registrations, because `loadOnlineUsers` discards its unsubscribe handle
and nothing ever cancels a presence subscription. -/
theorem presence_duplicate_subscriptions :
    Reachable dupState ∧ (presSubs dupState).length = 2 := by
  constructor
  · exact Relation.ReflTransGen.tail
      (Relation.ReflTransGen.tail
        (Relation.ReflTransGen.single (Step.auth initState (some aliceUser)))
        (Step.auth signedInState none))
      (Step.auth (authStateChanged signedInState none) (some aliceUser))
  · decide

/-- C1, amended.  The single-subscription invariant does hold for the
channel-messages topic: in every reachable state the live message-topic
registrations are exactly the one stored in `messageListener` (so there
is at most one), because `loadMessages` always cancels the stored handle
before resubscribing. -/
theorem message_topic_single_subscription (s : SessionState) (h : Reachable s) :
    (msgSubs s).map Prod.fst = s.messageListener.toList ∧ (msgSubs s).length ≤ 1 := by
  have hInv := inv_of_reachable h
  refine ⟨hInv.1, ?_⟩
  have hlen := congrArg List.length hInv.1
  rw [List.length_map] at hlen
  rw [hlen]
  cases s.messageListener <;> simp

/-- C1, witness: the amended statement at the constructor state. -/
theorem message_topic_single_subscription_witness :
    (msgSubs initState).map Prod.fst = initState.messageListener.toList ∧
      (msgSubs initState).length ≤ 1 :=
  message_topic_single_subscription initState Relation.ReflTransGen.refl

/-- C2, counterexample.  After a sign-out following real activity, the
presence registration (generation 1) is still live, and both the cached
message array and the presence set still hold their old contents: the
sign-out handler only calls `clearMessageListener` and resets the DOM. -/
theorem signOut_leaves_presence_and_caches :
    Reachable stateAfterSignOut ∧
    stateAfterSignOut.currentUser = none ∧
    (1, Topic.presence) ∈ stateAfterSignOut.liveSubs ∧
    stateAfterSignOut.allMessages = [mA] ∧
    stateAfterSignOut.onlineUsers = [['u', 'b']] := by
  constructor
  · exact Relation.ReflTransGen.tail
      (Relation.ReflTransGen.tail
        (Relation.ReflTransGen.tail
          (Relation.ReflTransGen.single (Step.auth initState (some aliceUser)))
          (Step.msgSnap signedInState 0 [mA]))
        (Step.presSnap (deliverMessageSnapshot signedInState 0 [mA]) 1 [bobDoc]))
      (Step.auth
        (deliverPresenceSnapshot (deliverMessageSnapshot signedInState 0 [mA]) 1 [bobDoc])
        none)
  · decide

/-- C2, amended.  On sign-out the session cancels the message
subscription only: afterwards no message-topic registration is live and
the stored handle is null, but the live presence registrations, the
cached message array and the presence set are all left exactly as they
were (only the DOM rendering is replaced). -/
theorem signOut_effects (s : SessionState) (h : Reachable s) :
    (authStateChanged s none).currentUser = none ∧
    (authStateChanged s none).messageListener = none ∧
    msgSubs (authStateChanged s none) = [] ∧
    presSubs (authStateChanged s none) = presSubs s ∧
    (authStateChanged s none).allMessages = s.allMessages ∧
    (authStateChanged s none).onlineUsers = s.onlineUsers := by
  have hInv : Inv s := inv_of_reachable h
  have hInv0 : Inv { s with currentUser := none } := by
    simpa [Inv, msgSubs] using hInv
  simp only [authStateChanged]
  refine ⟨?_, ?_, ?_, ?_, ?_, ?_⟩
  · rw [currentUser_clearMessageListener]
  · exact messageListener_clearMessageListener _
  · exact msgSubs_clearMessageListener hInv0
  · rw [presSubs_clearMessageListener hInv0]
    rfl
  · rw [allMessages_clearMessageListener]
  · rw [onlineUsers_clearMessageListener]

/-- C2, witness: the amended statement at the signed-in state. -/
theorem signOut_effects_witness :
    (authStateChanged signedInState none).currentUser = none ∧
    (authStateChanged signedInState none).messageListener = none ∧
    msgSubs (authStateChanged signedInState none) = [] ∧
    presSubs (authStateChanged signedInState none) = presSubs signedInState ∧
    (authStateChanged signedInState none).allMessages = signedInState.allMessages ∧
    (authStateChanged signedInState none).onlineUsers = signedInState.onlineUsers :=
  signOut_effects signedInState
    (Relation.ReflTransGen.single (Step.auth initState (some aliceUser)))

/-- Delivery to a live message listener replaces the log with the
snapshot's content. -/
theorem deliverMessageSnapshot_live {s : SessionState} {g : Nat}
    (h : s.liveSubs.any (fun p => p.1 == g && p.2.isMessages) = true)
    (snap : List Message) :
    (deliverMessageSnapshot s g snap).allMessages = snap := by
  unfold deliverMessageSnapshot
  rw [if_pos h]

/-- Delivery to a generation with no live message registration is a
no-op. -/
theorem deliverMessageSnapshot_stale {s : SessionState} {g : Nat}
    (h : s.liveSubs.any (fun p => p.1 == g && p.2.isMessages) = false)
    (snap : List Message) :
    deliverMessageSnapshot s g snap = s := by
  unfold deliverMessageSnapshot
  rw [if_neg]
  rw [h]
  simp

/-- C3, counterexample.  The snapshot callback does not re-sort: when a
snapshot delivers the later-timestamped message first, the stored
sequence keeps that delivery order, placing the t1 = 1 message after the
t2 = 2 message. -/
theorem messageSnapshot_not_resorted :
    Reachable misorderedDelivery ∧
    mA.timestamp = some 1 ∧ mB.timestamp = some 2 ∧
    misorderedDelivery.allMessages = [mB, mA] := by
  constructor
  · exact Relation.ReflTransGen.tail
      (Relation.ReflTransGen.single (Step.auth initState (some aliceUser)))
      (Step.msgSnap signedInState 0 [mB, mA])
  · decide

/-- C3, amended.  The stored and rendered sequence equals the delivered
snapshot in its delivery order: the consumer does not re-sort, so the
t1-before-t2 ordering holds exactly when the snapshot itself lists the
t1 message first (which the query's server-side `orderBy` provides). -/
theorem messageSnapshot_delivery_order (s : SessionState) (g : Nat) (snap : List Message)
    (hlive : s.liveSubs.any (fun p => p.1 == g && p.2.isMessages) = true) :
    (deliverMessageSnapshot s g snap).allMessages = snap := by
  unfold deliverMessageSnapshot
  rw [if_pos hlive]

/-- C3, witness: a delivery to the live generation-0 message listener. -/
theorem messageSnapshot_delivery_order_witness :
    (deliverMessageSnapshot signedInState 0 [mA, mB]).allMessages = [mA, mB] :=
  messageSnapshot_delivery_order signedInState 0 [mA, mB] (by decide)

/-- C4.  The message log is a pure function of the latest snapshot: a
delivery to a live message listener leaves `allMessages` equal to exactly
the snapshot's content (in particular the log empties when an empty
snapshot arrives after a non-empty state), and re-applying the same
snapshot changes nothing at all. -/
theorem messageLog_snapshot_pure (s : SessionState) (g : Nat)
    (hlive : s.liveSubs.any (fun p => p.1 == g && p.2.isMessages) = true) :
    (∀ snap, (deliverMessageSnapshot s g snap).allMessages = snap) ∧
    (∀ snap, deliverMessageSnapshot (deliverMessageSnapshot s g snap) g snap =
      deliverMessageSnapshot s g snap) := by
  constructor
  · intro snap
    unfold deliverMessageSnapshot
    rw [if_pos hlive]
  · intro snap
    have h1 : deliverMessageSnapshot s g snap = { s with allMessages := snap } := by
      unfold deliverMessageSnapshot
      rw [if_pos hlive]
    rw [h1]
    unfold deliverMessageSnapshot
    rw [if_pos (show ({ s with allMessages := snap } : SessionState).liveSubs.any
      (fun p => p.1 == g && p.2.isMessages) = true from hlive)]

/-- C4, witness: idempotent re-delivery of a snapshot, and emptying by a
subsequent empty snapshot, at the signed-in state. -/
theorem messageLog_snapshot_pure_witness :
    (deliverMessageSnapshot signedInState 0 [mA]).allMessages = [mA] ∧
    deliverMessageSnapshot (deliverMessageSnapshot signedInState 0 [mA]) 0 [mA] =
      deliverMessageSnapshot signedInState 0 [mA] ∧
    (deliverMessageSnapshot signedInState 0 []).allMessages = [] :=
  ⟨(messageLog_snapshot_pure signedInState 0 (by decide)).1 [mA],
   (messageLog_snapshot_pure signedInState 0 (by decide)).2 [mA],
   (messageLog_snapshot_pure signedInState 0 (by decide)).1 []⟩

/-- C6, counterexample.  After a channel switch the message log is not
reset: the new subscription (generation 2) is already open and the old
one cancelled, yet `allMessages` still holds the `ideas` message until
the first snapshot for `support` arrives. -/
theorem switchChannel_log_not_reset :
    Reachable switchedState ∧
    switchedState.currentChannel = supportCh ∧
    switchedState.messageListener = some 2 ∧
    ((2, Topic.messages supportCh) ∈ switchedState.liveSubs) ∧
    switchedState.allMessages = [mA] := by
  constructor
  · exact Relation.ReflTransGen.tail
      (Relation.ReflTransGen.tail
        (Relation.ReflTransGen.single (Step.auth initState (some aliceUser)))
        (Step.msgSnap signedInState 0 [mA]))
      (Step.switch (deliverMessageSnapshot signedInState 0 [mA]) supportCh)
  · decide

/-- C6, amended.  A channel switch while signed in cancels the old
message subscription and opens a new one for the new channel; the
presence registrations and the presence set are untouched; a stale
delivery for the old (cancelled) listener mutates nothing.  However the
message log is NOT reset during the switch: it keeps the old channel's
messages (conjunct 5) and is replaced only when the first snapshot of the
new subscription is delivered (last conjunct). -/
theorem switchChannel_effects (s : SessionState) (ch : List Char) (u : AuthUser) (g : Nat)
    (hr : Reachable s) (hu : s.currentUser = some u) (hml : s.messageListener = some g) :
    (switchChannel s ch).currentChannel = ch ∧
    (∀ t, (g, t) ∉ (switchChannel s ch).liveSubs) ∧
    (switchChannel s ch).messageListener = some s.nextGen ∧
    (s.nextGen, Topic.messages ch) ∈ (switchChannel s ch).liveSubs ∧
    (switchChannel s ch).allMessages = s.allMessages ∧
    presSubs (switchChannel s ch) = presSubs s ∧
    (switchChannel s ch).onlineUsers = s.onlineUsers ∧
    (∀ snap, deliverMessageSnapshot (switchChannel s ch) g snap = switchChannel s ch) ∧
    (∀ snap, (deliverMessageSnapshot (switchChannel s ch) s.nextGen snap).allMessages = snap) := by
  have hInv := inv_of_reachable hr
  have hInv2 : Inv { s with currentChannel := ch } := by
    simpa [Inv, msgSubs] using hInv
  obtain ⟨h1, h2, h3⟩ := hInv
  rw [hml] at h1
  obtain ⟨t0, ht0⟩ := map_fst_eq_singleton (by simpa using h1)
  have hgmem : (g, t0) ∈ s.liveSubs := by
    have hm : (g, t0) ∈ msgSubs s := by rw [ht0]; exact List.mem_singleton.mpr rfl
    exact (List.mem_filter.mp hm).1
  have hglt : g < s.nextGen := h2 _ hgmem
  have hsw : switchChannel s ch =
      { s with
          currentChannel := ch
          liveSubs := (s.nextGen, Topic.messages ch) :: s.liveSubs.filter (fun p => p.1 != g)
          messageListener := some s.nextGen
          nextGen := s.nextGen + 1 } := by
    simp [switchChannel, hu, loadMessages, clearMessageListener, hml]
  have hcond : (((s.nextGen, Topic.messages ch) ::
      s.liveSubs.filter (fun p => p.1 != g)).any
        (fun p => p.1 == g && p.2.isMessages)) = false := by
    by_contra hx
    rw [Bool.not_eq_false, List.any_eq_true] at hx
    obtain ⟨p, hp, hpt⟩ := hx
    have hpg : p.1 = g := by
      cases hand : (p.1 == g) with
      | false => rw [hand] at hpt; simp at hpt
      | true => exact eq_of_beq hand
    rcases List.mem_cons.mp hp with hp | hp
    · have : s.nextGen = g := by rw [hp] at hpg; exact hpg
      omega
    · have hne := (List.mem_filter.mp hp).2
      rw [hpg] at hne
      simp at hne
  refine ⟨?_, ?_, ?_, ?_, ?_, ?_, ?_, ?_, ?_⟩
  · rw [hsw]
  · intro t hmem
    rw [hsw] at hmem
    simp only [List.mem_cons, List.mem_filter] at hmem
    rcases hmem with hmem | hmem
    · have : g = s.nextGen := congrArg Prod.fst hmem
      omega
    · simpa using hmem.2
  · rw [hsw]
  · rw [hsw]
    exact List.mem_cons_self _ _
  · rw [hsw]
  · have hps : presSubs (switchChannel s ch) =
        presSubs (clearMessageListener { s with currentChannel := ch }) := by
      rw [hsw]
      simp [presSubs, clearMessageListener, hml, List.filter_cons, Topic.isMessages]
    rw [hps, presSubs_clearMessageListener hInv2]
    rfl
  · rw [hsw]
  · intro snap
    rw [hsw]
    exact deliverMessageSnapshot_stale hcond snap
  · intro snap
    rw [hsw]
    refine deliverMessageSnapshot_live ?_ snap
    show (((s.nextGen, Topic.messages ch) ::
      s.liveSubs.filter (fun p => p.1 != g)).any
        (fun p => p.1 == s.nextGen && p.2.isMessages)) = true
    simp [Topic.isMessages]

/-- C6, witness: the amended statement after receiving a message on
`ideas` and switching to `support` (old listener generation 0, next
generation 2), with the two delivery conjuncts instantiated at concrete
snapshots. -/
theorem switchChannel_effects_witness :
    switchedState.currentChannel = supportCh ∧
    switchedState.allMessages = (deliverMessageSnapshot signedInState 0 [mA]).allMessages ∧
    presSubs switchedState = presSubs (deliverMessageSnapshot signedInState 0 [mA]) ∧
    deliverMessageSnapshot switchedState 0 [mB] = switchedState ∧
    (deliverMessageSnapshot switchedState 2 [mB]).allMessages = [mB] := by
  have h := switchChannel_effects (deliverMessageSnapshot signedInState 0 [mA]) supportCh
    aliceUser 0
    (Relation.ReflTransGen.tail
      (Relation.ReflTransGen.single (Step.auth initState (some aliceUser)))
      (Step.msgSnap signedInState 0 [mA]))
    (by decide) (by decide)
  exact ⟨h.1, h.2.2.2.2.1, h.2.2.2.2.2.1, h.2.2.2.2.2.2.2.1 [mB], h.2.2.2.2.2.2.2.2 [mB]⟩

/-- C10.  Calling `switchChannel` while signed out only opens the auth
modal: the channel, listener handle, caches and live registrations are
all unchanged. -/
theorem switchChannel_signedOut_frame (s : SessionState) (ch : List Char)
    (h : s.currentUser = none) :
    switchChannel s ch = { s with authModalOpen := true } ∧
    (switchChannel s ch).currentUser = none ∧
    (switchChannel s ch).currentChannel = s.currentChannel ∧
    (switchChannel s ch).messageListener = s.messageListener ∧
    (switchChannel s ch).allMessages = s.allMessages ∧
    (switchChannel s ch).onlineUsers = s.onlineUsers ∧
    (switchChannel s ch).liveSubs = s.liveSubs := by
  have hsw : switchChannel s ch = { s with authModalOpen := true } := by
    simp [switchChannel, h]
  refine ⟨hsw, ?_, ?_, ?_, ?_, ?_, ?_⟩ <;> rw [hsw]
  exact h

/-- C10, witness: a signed-out channel switch at the constructor state. -/
theorem switchChannel_signedOut_frame_witness :
    switchChannel initState supportCh = { initState with authModalOpen := true } ∧
    (switchChannel initState supportCh).currentUser = none ∧
    (switchChannel initState supportCh).currentChannel = initState.currentChannel ∧
    (switchChannel initState supportCh).messageListener = initState.messageListener ∧
    (switchChannel initState supportCh).allMessages = initState.allMessages ∧
    (switchChannel initState supportCh).onlineUsers = initState.onlineUsers ∧
    (switchChannel initState supportCh).liveSubs = initState.liveSubs :=
  switchChannel_signedOut_frame initState supportCh rfl

/-! ### Presence set characterization -/

theorem presStep_mem (selfUid : List Char) (acc : List (List Char)) (u : UserDoc)
    (x : List Char) :
    x ∈ presStep selfUid acc u ↔ x ∈ acc ∨ (x = u.uid ∧ u.uid ≠ selfUid) := by
  unfold presStep
  split_ifs with h1 h2
  · simp [h1]
  · have hmem : u.uid ∈ acc := by simpa using h2
    constructor
    · exact Or.inl
    · rintro (hx | ⟨hx, _⟩)
      · exact hx
      · rw [hx]; exact hmem
  · simp [List.mem_append, h1]

theorem foldl_presStep_mem (selfUid : List Char) (snap : List UserDoc) :
    ∀ (acc : List (List Char)) (x : List Char),
      x ∈ snap.foldl (presStep selfUid) acc ↔
        x ∈ acc ∨ ∃ e ∈ snap, x = e.uid ∧ e.uid ≠ selfUid := by
  induction snap with
  | nil => intro acc x; simp
  | cons e t ih =>
    intro acc x
    rw [List.foldl_cons, ih, presStep_mem]
    simp only [List.mem_cons]
    constructor
    · rintro ((hx | hx) | ⟨e1, he1, hx⟩)
      · exact Or.inl hx
      · exact Or.inr ⟨e, Or.inl rfl, hx⟩
      · exact Or.inr ⟨e1, Or.inr he1, hx⟩
    · rintro (hx | ⟨e1, he1 | he1, hx⟩)
      · exact Or.inl (Or.inl hx)
      · rw [he1] at hx
        exact Or.inl (Or.inr hx)
      · exact Or.inr ⟨e1, he1, hx⟩

theorem foldl_presStep_nodup (selfUid : List Char) (snap : List UserDoc) :
    ∀ acc : List (List Char),
      acc.Nodup → (snap.foldl (presStep selfUid) acc).Nodup := by
  induction snap with
  | nil => intro acc h; simpa using h
  | cons e t ih =>
    intro acc h
    rw [List.foldl_cons]
    apply ih
    unfold presStep
    split_ifs with h1 h2
    · exact h
    · exact h
    · have hnm : e.uid ∉ acc := by
        intro hm
        exact h2 (by simpa using hm)
      simp [List.nodup_append, h, hnm]

/-- C8.  A presence snapshot delivered to a live presence registration
while a user is signed in replaces the presence set wholesale: afterwards
a uid is in the set iff some snapshot document carries it and it is not
the local user's own uid, and uids are listed without duplicates. -/
theorem presenceSnapshot_spec (s : SessionState) (g : Nat) (snap : List UserDoc)
    (u : AuthUser) (hu : s.currentUser = some u)
    (hlive : s.liveSubs.any (fun p => p.1 == g && !p.2.isMessages) = true) :
    (∀ uid, uid ∈ (deliverPresenceSnapshot s g snap).onlineUsers ↔
        ((∃ e ∈ snap, e.uid = uid) ∧ uid ≠ u.uid)) ∧
    (deliverPresenceSnapshot s g snap).onlineUsers.Nodup := by
  have hds : deliverPresenceSnapshot s g snap =
      { s with onlineUsers := applyPresenceSnapshot snap u.uid } := by
    unfold deliverPresenceSnapshot
    rw [if_pos hlive, hu]
  rw [hds]
  constructor
  · intro uid
    show uid ∈ applyPresenceSnapshot snap u.uid ↔ _
    unfold applyPresenceSnapshot
    rw [foldl_presStep_mem]
    simp only [List.not_mem_nil, false_or]
    constructor
    · rintro ⟨e, he, hx, hne⟩
      exact ⟨⟨e, he, hx.symm⟩, hx ▸ hne⟩
    · rintro ⟨⟨e, he, hx⟩, hne⟩
      exact ⟨e, he, hx.symm, hx.symm ▸ hne⟩
  · exact foldl_presStep_nodup u.uid snap [] List.nodup_nil

/-- C8, witness: a snapshot containing the local user plus two others,
delivered to the live generation-1 presence registration. -/
theorem presenceSnapshot_spec_witness :
    (['u', 'b'] ∈
        (deliverPresenceSnapshot signedInState 1 [aliceDoc, bobDoc, carolDoc]).onlineUsers ↔
      ((∃ e ∈ [aliceDoc, bobDoc, carolDoc], e.uid = ['u', 'b']) ∧
        ['u', 'b'] ≠ aliceUser.uid)) ∧
    (['u', 'a'] ∈
        (deliverPresenceSnapshot signedInState 1 [aliceDoc, bobDoc, carolDoc]).onlineUsers ↔
      ((∃ e ∈ [aliceDoc, bobDoc, carolDoc], e.uid = ['u', 'a']) ∧
        ['u', 'a'] ≠ aliceUser.uid)) ∧
    (deliverPresenceSnapshot signedInState 1 [aliceDoc, bobDoc, carolDoc]).onlineUsers.Nodup :=
  ⟨(presenceSnapshot_spec signedInState 1 [aliceDoc, bobDoc, carolDoc] aliceUser
      (by decide) (by decide)).1 ['u', 'b'],
   (presenceSnapshot_spec signedInState 1 [aliceDoc, bobDoc, carolDoc] aliceUser
      (by decide) (by decide)).1 ['u', 'a'],
   (presenceSnapshot_spec signedInState 1 [aliceDoc, bobDoc, carolDoc] aliceUser
      (by decide) (by decide)).2⟩

/-- C7.  Search: a whitespace-only (or empty) input yields the "enter a
term" sentinel; any other input yields either the "no results" sentinel or
exactly the log's messages whose lower-cased text or author display name
contains the lower-cased trimmed term, in the log's own order (a filter of
the log); and the result is insensitive to the case of the input. -/
theorem handleSearch_spec (input : List Char) (log : List Message) :
    ((∀ c ∈ input, c.isWhitespace = true) → handleSearch input log = .enterTerm) ∧
    ((¬ ∀ c ∈ input, c.isWhitespace = true) →
      handleSearch input log =
        (if log.filter (messageMatches (trim (toLowerStr input))) = [] then .noResults
         else .results (log.filter (messageMatches (trim (toLowerStr input)))))) ∧
    (log.filter (messageMatches (trim (toLowerStr input)))).Sublist log ∧
    handleSearch (toLowerStr input) log = handleSearch input log := by
  have hkey : (trim (toLowerStr input) = []) ↔ ∀ c ∈ input, c.isWhitespace = true := by
    rw [trim_eq_nil_iff]
    constructor
    · intro h c hc
      have hm := h (Char.toLower c) (List.mem_map.mpr ⟨c, hc, rfl⟩)
      rwa [toLower_isWhitespace] at hm
    · intro h c hc
      obtain ⟨c0, hc0, rfl⟩ := List.mem_map.mp hc
      rw [toLower_isWhitespace]
      exact h c0 hc0
  refine ⟨?_, ?_, List.filter_sublist log, ?_⟩
  · intro hws
    unfold handleSearch
    rw [if_pos (hkey.mpr hws)]
  · intro hws
    unfold handleSearch
    rw [if_neg (fun hx => hws (hkey.mp hx))]
  · unfold handleSearch
    rw [toLowerStr_toLowerStr]

/-- C7, witness: the three sentinel states on concrete inputs — a
whitespace-only term, a non-matching term, and a case-insensitive
matching term against the log `[mA]` (text `hi`). -/
theorem handleSearch_spec_witness :
    handleSearch [' ', '\t'] [mA] = SearchRender.enterTerm ∧
    handleSearch ['z', 'z'] [mA] = SearchRender.noResults ∧
    handleSearch ['H', 'I'] [mA] = SearchRender.results [mA] := by
  refine ⟨(handleSearch_spec [' ', '\t'] [mA]).1 (by decide), ?_, ?_⟩
  · have h := (handleSearch_spec ['z', 'z'] [mA]).2.1 (by decide)
    rw [h]
    decide
  · have h := (handleSearch_spec ['H', 'I'] [mA]).2.1 (by decide)
    rw [h]
    decide

/-- The message text used to exhibit the missing escaping on the search
path: it contains markup-significant characters. -/
def xssText : List Char := ['<', 'b', '>', 'x', '<', '/', 'b', '>']

/-- A message whose user-supplied text contains markup. -/
def xssMessage : Message :=
  { text := xssText, userId := ['u', 'b'], displayName := ['B', 'o', 'b'],
    email := ['b', '@', 'x'], channel := ideasCh, timestamp := some 3 }

/-- C5.  The main message list escapes the user-supplied text
(`displayMessage` interpolates `escapeHtml(message.text)`), but the
search-results list does not: `handleSearch` interpolates the raw
`message.text` into its markup, and for a text containing `<`/`>` the raw
and escaped forms differ — this message is reachable through a search, so
the escaping required on every presentation path is missing there. -/
theorem searchResult_renders_raw_text :
    messageTextSlot xssMessage = escapeHtml xssText ∧
    searchResultTextSlot xssMessage = xssText ∧
    escapeHtml xssText ≠ xssText ∧
    handleSearch ['x'] [xssMessage] = SearchRender.results [xssMessage] := by
  refine ⟨rfl, rfl, by decide, by decide⟩

/-- C9.  `sendMessage` writes nothing exactly when no user is signed in
or the input is empty after trimming; when it writes, the record's text
is the trimmed input and its channel the currently active channel. -/
theorem sendMessage_spec (user : Option AuthUser) (input ch : List Char) :
    (sendMessage user input ch = none ↔ user = none ∨ trim input = []) ∧
    (∀ u r, user = some u → sendMessage user input ch = some r →
      r.text = trim input ∧ r.channel = ch) := by
  constructor
  · cases user with
    | none => simp [sendMessage]
    | some u =>
      by_cases ht : trim input = []
      · simp [sendMessage, ht]
      · simp [sendMessage, ht]
  · intro u r hu hr
    subst hu
    by_cases ht : trim input = []
    · have hn : sendMessage (some u) input ch = none := by
        simp [sendMessage, ht]
      rw [hn] at hr
      exact absurd hr (by simp)
    · have hs : sendMessage (some u) input ch = some
          { text := trim input, userId := u.uid,
            displayName :=
              if u.displayName = [] then emailLocalPart u.email else u.displayName,
            email := u.email, channel := ch } := by
        simp [sendMessage, ht]
      rw [hs] at hr
      have hr2 := Option.some.inj hr
      rw [← hr2]
      exact ⟨rfl, rfl⟩

/-- C9, witness: a successful send of `' hi '` on channel `ideas` by
Alice, and a refused send of a whitespace-only input. -/
theorem sendMessage_spec_witness :
    (sendMessage (some aliceUser) [' '] ideasCh = none ↔
      (some aliceUser = none ∨ trim [' '] = [])) ∧
    ({ text := ['h', 'i'], userId := ['u', 'a'],
       displayName := ['A', 'l', 'i', 'c', 'e'], email := ['a', '@', 'x'],
       channel := ideasCh } : SendRecord).text = trim [' ', 'h', 'i', ' '] ∧
    ({ text := ['h', 'i'], userId := ['u', 'a'],
       displayName := ['A', 'l', 'i', 'c', 'e'], email := ['a', '@', 'x'],
       channel := ideasCh } : SendRecord).channel = ideasCh := by
  refine ⟨(sendMessage_spec (some aliceUser) [' '] ideasCh).1, ?_⟩
  have h := (sendMessage_spec (some aliceUser) [' ', 'h', 'i', ' '] ideasCh).2 aliceUser
    { text := ['h', 'i'], userId := ['u', 'a'],
      displayName := ['A', 'l', 'i', 'c', 'e'], email := ['a', '@', 'x'],
      channel := ideasCh } rfl (by decide)
  exact h

end Chatroome
